import Mathlib

/-!
Low-power smoke alarm (AVR): shallow embedding of `main.c`.

The firmware is a single C file.  Its functions are embedded as pure functions
on a record `Machine` holding the peripheral registers the code touches, the
two globals (`digitalVal`, `buffer`), the injected sensor stream and an
observation trace.

Conventions:
* 8-bit registers are `Nat` values below 256; `unsigned int` / `int` are the
  16-bit AVR types, with the conversions `toInt16` / `toUInt16` made explicit.
* The three busy-wait loops (`ADIF`, `UDRE0`, `TOV0`) are blocking calls that
  the hardware completes; every `ADC_read()` gets the next value of the
  injected stream, as a right-adjusted 10-bit result (`ADMUX = 0x40`).
* `_delay_ms` has no effect on the state apart from a trace entry, which
  records the level of `PORTD` held during the delay.
* `main` never returns; it is embedded as the statements before the loops
  (`main_init`) followed by the step function `step` on the three control
  locations of `main`.
* The bounded `for` loops are total functions; `init_configure`, whose `while`
  loop may run for ever, counts loop tests and yields `none` when the count is
  used up.
-/

namespace SmokeAlarm

/-! ## Bit names of the device header and of `main.c` -/

/-- Source: `#define SENSOR 0`. -/
def SENSOR : Nat := 0
/-- Source: `#define LED 1`. -/
def LED : Nat := 1

/-- Timer 0 overflow flag, bit 0 of `TIFR0` (device header). -/
def TOV0 : Nat := 0
/-- Sleep enable, bit 0 of `SMCR` (device header). -/
def SE : Nat := 0
/-- Sleep mode select bit 1, bit 2 of `SMCR` (device header). -/
def SM1 : Nat := 2
/-- Watchdog system reset enable, bit 3 of `WDTCSR` (device header). -/
def WDE : Nat := 3
/-- Watchdog change enable, bit 4 of `WDTCSR` (device header). -/
def WDCE : Nat := 4
/-- Watchdog prescaler bit 3, bit 5 of `WDTCSR` (device header). -/
def WDP3 : Nat := 5
/-- Watchdog interrupt enable, bit 6 of `WDTCSR` (device header). -/
def WDIE : Nat := 6
/-- ADC prescaler select bit 0, bit 0 of `ADCSRA` (device header). -/
def ADPS0 : Nat := 0

/-- ADC prescaler select bit 1, bit 1 of `ADCSRA` (device header). -/
def ADPS1 : Nat := 1

/-- ADC prescaler select bit 2, bit 2 of `ADCSRA` (device header). -/
def ADPS2 : Nat := 2
/-- ADC interrupt flag, bit 4 of `ADCSRA` (device header). -/
def ADIF : Nat := 4
/-- ADC start conversion, bit 6 of `ADCSRA` (device header). -/
def ADSC : Nat := 6
/-- ADC enable, bit 7 of `ADCSRA` (device header). -/
def ADEN : Nat := 7
/-- Transmitter enable, bit 3 of `UCSR0B` (device header). -/
def TXEN0 : Nat := 3
/-- Character size bit 0, bit 1 of `UCSR0C` (device header). -/
def UCSZ00 : Nat := 1

/-- Character size bit 1, bit 2 of `UCSR0C` (device header). -/
def UCSZ01 : Nat := 2

/-- Complement of an 8-bit mask, as stored back into an 8-bit register
(`REG &= ~mask`). -/
def not8 (mask : Nat) : Nat := 255 ^^^ (mask % 256)

/-- Conversion `unsigned int -> int` on the 16-bit AVR. -/
def toInt16 (w : Nat) : Int :=
  if w % 65536 < 32768 then ((w % 65536 : Nat) : Int) else ((w % 65536 : Nat) : Int) - 65536

/-- Conversion `int -> unsigned int` on the 16-bit AVR. -/
def toUInt16 (v : Int) : Nat := (v % 65536).toNat

/-! ## Observations -/

/-- What the device does to the outside world, in program order.  Sensor reads
and serial bytes carry a snapshot of `PORTB` taken when they happen. -/
inductive Event where
  /-- one completed `ADC_read()`: `PORTB` at the call, value returned -/
  | adc (portb : Nat) (val : Int)
  /-- one `UART_send(letter)`: `PORTB` at the call, byte written to `UDR0` -/
  | tx (portb : Nat) (byte : Nat)
  /-- one executed `sleep` instruction -/
  | nap
  /-- one `PORTD ^= (1 << 0)` in `alarmTimer()`: the new value of `PORTD` -/
  | toggle (portd : Nat)
  /-- one `_delay_ms(ms)`: `PORTD` as held during the delay, length in ms -/
  | delay (portd : Nat) (ms : Nat)
  deriving DecidableEq, Repr

/-- Registers, globals, the injected sensor stream and the trace. -/
structure Machine where
  DDRB : Nat
  PORTB : Nat
  DDRC : Nat
  DDRD : Nat
  PORTD : Nat
  TCNT0 : Nat
  TCCR0A : Nat
  TCCR0B : Nat
  TIFR0 : Nat
  SMCR : Nat
  WDTCSR : Nat
  /-- global interrupt enable (`sei()`) -/
  SREG_I : Bool
  ADCSRA : Nat
  ADMUX : Nat
  ADCL : Nat
  ADCH : Nat
  UCSR0B : Nat
  UCSR0C : Nat
  UBRR0L : Nat
  UDR0 : Nat
  /-- global `unsigned int digitalVal` -/
  digitalVal : Nat
  /-- global `char buffer[6]` -/
  buffer : List Nat
  /-- injected sample sequence: the result of the `i`-th conversion -/
  sensor : Nat → Nat
  /-- number of conversions performed so far -/
  reads : Nat
  trace : List Event

/-- The device after reset, with an injected sample sequence: I/O registers at
their reset values (all zero but the frame format in `UCSR0C`), globals
zero-initialised. -/
def reset (sensor : Nat → Nat) : Machine :=
  { DDRB := 0, PORTB := 0, DDRC := 0, DDRD := 0, PORTD := 0,
    TCNT0 := 0, TCCR0A := 0, TCCR0B := 0, TIFR0 := 0,
    SMCR := 0, WDTCSR := 0, SREG_I := false,
    ADCSRA := 0, ADMUX := 0, ADCL := 0, ADCH := 0,
    UCSR0B := 0, UCSR0C := 6, UBRR0L := 0, UDR0 := 0,
    digitalVal := 0, buffer := [0, 0, 0, 0, 0, 0],
    sensor := sensor, reads := 0, trace := [] }

/-! ## Trace projections -/

/-- Bytes written to the serial sink, in order. -/
def uartBytes (t : List Event) : List Nat :=
  t.filterMap fun e => match e with
    | Event.tx _ b => some b
    | _ => none

/-- Number of executed `sleep` instructions. -/
def napCount (t : List Event) : Nat :=
  t.countP fun e => match e with
    | Event.nap => true
    | _ => false

/-- Number of pin toggles performed by `alarmTimer()`. -/
def toggleCount (t : List Event) : Nat :=
  t.countP fun e => match e with
    | Event.toggle _ => true
    | _ => false

/-- The `PORTB` snapshots of the sensor reads, in order. -/
def portbAtReads (t : List Event) : List Nat :=
  t.filterMap fun e => match e with
    | Event.adc p _ => some p
    | _ => none

/-- The `PORTB` snapshots of the serial bytes, in order. -/
def portbAtSends (t : List Event) : List Nat :=
  t.filterMap fun e => match e with
    | Event.tx p _ => some p
    | _ => none

/-! ## ADC -/

/-- Function `ADC_init()`. -/
def ADC_init (m : Machine) : Machine :=
  let m := { m with DDRC := m.DDRC &&& not8 (1 <<< SENSOR) }
  let m := { m with ADCSRA := 1 <<< ADEN }
  let m := { m with ADCSRA := m.ADCSRA ||| ((1 <<< ADPS0) ||| (1 <<< ADPS1) ||| (1 <<< ADPS2)) }
  { m with ADMUX := 0x40 }

/-- Function `ADC_read()`: start a conversion, wait for it, combine `ADCL` and `ADCH`.
The hardware finishes the conversion of the next injected value: `ADSC` drops,
`ADIF` rises and the 10-bit result is presented right-adjusted. -/
def ADC_read (m : Machine) : Int × Machine :=
  let r := m.sensor m.reads
  let m1 := { m with ADCSRA := m.ADCSRA ||| (1 <<< ADSC) }
  let m2 := { m1 with
    ADCSRA := (m1.ADCSRA &&& not8 (1 <<< ADSC)) ||| (1 <<< ADIF)
    ADCL := r % 256
    ADCH := r / 256 % 4
    reads := m1.reads + 1 }
  let digWord : Nat := (m2.ADCL ||| (m2.ADCH <<< 8)) % 65536
  let v : Int := toInt16 digWord
  (v, { m2 with trace := m2.trace ++ [Event.adc m2.PORTB v] })

/-! ## UART -/

/-- Function `UART_init()`. -/
def UART_init (m : Machine) : Machine :=
  let m := { m with UCSR0B := 1 <<< TXEN0 }
  let m := { m with UCSR0C := (1 <<< UCSZ01) ||| (1 <<< UCSZ00) }
  { m with UBRR0L := 103 }

/-- Function `UART_send(letter)`: wait until the transmit buffer is free, then write the
byte to `UDR0`. -/
def UART_send (letter : Nat) (m : Machine) : Machine :=
  { m with UDR0 := letter % 256, trace := m.trace ++ [Event.tx m.PORTB (letter % 256)] }

/-- The characters of a C string: everything before the first NUL. -/
def cstr (s : List Nat) : List Nat := s.takeWhile (fun c => c != 0)

/-- Function `UART_writeString(stringAdd)`: send `stringAdd[i]` for `i < strlen`.  The
index is an `unsigned char`; strings handled here are shorter than 256. -/
def UART_writeString (stringAdd : List Nat) (m : Machine) : Machine :=
  (cstr stringAdd).foldl (fun m c => UART_send c m) m

/-! ## `itoa` of the C library -/

/-- Character of one digit: `0`..`9`, then `a`..`z`. -/
def digitChar (d : Nat) : Nat := if d < 10 then 48 + d else 87 + d

/-- Digits of `n`, least significant first, as the library's divide loop
produces them (`do { emit n % radix; n /= radix } while (n != 0)`).  The first
argument bounds the number of digits; 16 is enough for a 16-bit value. -/
def utoaRev (radix : Nat) : Nat → Nat → List Nat
  | 0, _ => []
  | k + 1, n =>
    digitChar (n % radix) :: (if n / radix = 0 then [] else utoaRev radix k (n / radix))

/-- Function `itoa(val, s, radix)` of the AVR C library: the bytes stored at `s`,
terminating NUL included.  A negative value gets a minus sign in radix 10 and
is taken as unsigned in the other radices. -/
def itoa (val : Int) (radix : Nat) : List Nat :=
  if radix < 2 ∨ 36 < radix then [0]
  else if val < 0 ∧ radix = 10 then
    45 :: ((utoaRev radix 16 (-val).toNat).reverse ++ [0])
  else (utoaRev radix 16 (toUInt16 val)).reverse ++ [0]

/-- Store bytes at the start of a buffer. -/
def store (buf bytes : List Nat) : List Nat := bytes ++ buf.drop bytes.length

/-- The report of `main()` and `init_configure()`:
`itoa(digitalVal, buffer, 10); UART_writeString(buffer); UART_send(13);
UART_send(10);`. -/
def report (m : Machine) : Machine :=
  let m := { m with buffer := store m.buffer (itoa (toInt16 m.digitalVal) 10) }
  let m := UART_writeString m.buffer m
  let m := UART_send 13 m
  UART_send 10 m

/-- Function `_delay_ms(ms)`: a busy wait during which the outputs keep their
level; the trace records `PORTD` as it stands for the whole delay. -/
def delay_ms (ms : Nat) (m : Machine) : Machine :=
  { m with trace := m.trace ++ [Event.delay m.PORTD ms] }

/-! ## Calibration gate -/

/-- One test of the loop condition of `init_configure()`, followed either by
the loop body (`true`: the loop goes on) or by the statement after the loop
(`false`: the function returns). -/
def init_configure_iter (m : Machine) : Bool × Machine :=
  let (v, m) := ADC_read m
  if v > 400 then
    let m := { m with PORTB := m.PORTB ||| (1 <<< LED) }
    let (v2, m) := ADC_read m
    let m := { m with digitalVal := toUInt16 v2 }
    let m := report m
    let m := delay_ms 100 m
    (true, m)
  else
    (false, { m with PORTB := m.PORTB &&& not8 (1 <<< LED) })

/-- Function `init_configure()`.  The `while` loop may run for ever, so the embedding
counts loop tests: `none` means the loop is still running after `fuel` tests. -/
def init_configure : Nat → Machine → Option Machine
  | 0, _ => none
  | fuel + 1, m =>
    match init_configure_iter m with
    | (true, m) => init_configure fuel m
    | (false, m) => some m

/-! ## Buzzer -/

/-- The wait `while((TIFR0 & (1 << TOV0)) == 0);` with timer 0 running: if the
flag is not already up, the counter runs to its overflow, wraps to 0 and the
hardware raises `TOV0`. -/
def waitTOV0 (m : Machine) : Machine :=
  if m.TIFR0 &&& (1 <<< TOV0) = 0 then
    { m with TCNT0 := 0, TIFR0 := m.TIFR0 ||| (1 <<< TOV0) }
  else m

/-- Function `alarmTimer()`.  Writing a one to a bit of `TIFR0` clears that flag. -/
def alarmTimer (m : Machine) : Machine :=
  let m := { m with TCNT0 := 131 }
  let m := { m with TCCR0A := 0x00 }
  let m := { m with TCCR0B := 0x03 }
  let m := waitTOV0 m
  let m := { m with TCCR0B := 0 }
  let m := { m with TIFR0 := m.TIFR0 &&& not8 (1 <<< TOV0) }
  let m := { m with PORTD := m.PORTD ^^^ (1 <<< 0) }
  { m with trace := m.trace ++ [Event.toggle m.PORTD] }

/-! ## Sleep -/

/-- Function `powerDown_setup()`. -/
def powerDown_setup (m : Machine) : Machine :=
  let m := { m with SMCR := m.SMCR ||| (1 <<< SM1) }
  let m := { m with SMCR := m.SMCR ||| (1 <<< SE) }
  let m := { m with WDTCSR := (1 <<< WDE) ||| (1 <<< WDCE) }
  let m := { m with WDTCSR := 1 <<< WDP3 }
  { m with WDTCSR := m.WDTCSR ||| (1 <<< WDIE) }

/-- One `sleep` instruction: the processor stops until the watchdog interrupt,
whose handler `ISR(WDT_vect)` is empty. -/
def sleepInstr (m : Machine) : Machine :=
  { m with trace := m.trace ++ [Event.nap] }

/-- The loop `for(unsigned char i = 0; i < 15; i++) sleep` of
`powerDown_watchDog()`, from the value `i` of the counter. -/
def powerDown_watchDog_loop (i : Nat) (m : Machine) : Machine :=
  if i < 15 then powerDown_watchDog_loop ((i + 1) % 256) (sleepInstr m) else m
termination_by 15 - i
decreasing_by omega

/-- Function `powerDown_watchDog()`. -/
def powerDown_watchDog (m : Machine) : Machine :=
  powerDown_watchDog_loop 0 m

/-- Nominal time-out of the watchdog timer in milliseconds, selected by the
prescaler bits `WDP3` (bit 5) and `WDP2..0` (bits 2..0) of `WDTCSR`
(data sheet table of the watchdog prescaler; reserved settings give 0).  The
setting written by `powerDown_setup()` is the one its comment calls the 4s
counter. -/
def wdtPeriodMs (wdtcsr : Nat) : Nat :=
  [16, 32, 64, 125, 250, 500, 1000, 2000, 4000, 8000].getD
    (wdtcsr / 32 % 2 * 8 + wdtcsr % 8) 0

/-! ## `main` -/

/-- The statements of `main()` before `init_configure()`. -/
def main_init (m : Machine) : Machine :=
  let m := { m with DDRB := m.DDRB ||| (1 <<< LED) }
  let m := { m with DDRD := 1 <<< 0 }
  let m := { m with PORTD := 1 <<< 0 }
  let m := UART_init m
  ADC_init m

/-- Function `sei()`. -/
def sei (m : Machine) : Machine := { m with SREG_I := true }

/-- One pass through the body of the outer `while (1)` of `main()` up to and
including the test `ADC_read() > 600`; the Boolean is the outcome of the
test. -/
def main_loop_body (m : Machine) : Bool × Machine :=
  let (v, m) := ADC_read m
  let m := { m with digitalVal := toUInt16 v }
  let m := report m
  let m := delay_ms 10 m
  let m := powerDown_watchDog m
  let (v2, m) := ADC_read m
  (decide (v2 > 600), m)

/-- The loop `for(int i = 0; i < 350; i++) alarmTimer();` from the value `i`
of the counter. -/
def alarm_loop (i : Nat) (m : Machine) : Machine :=
  if i < 350 then alarm_loop (i + 1) (alarmTimer m) else m
termination_by 350 - i
decreasing_by omega

/-- One pass through the body of the inner `while (1)` of `main()`. -/
def alarm_burst (m : Machine) : Machine :=
  let m := alarm_loop 0 m
  let m := { m with PORTD := m.PORTD &&& not8 (1 <<< 0) }
  delay_ms 100 m

/-- Control locations of `main()`: inside `init_configure()`, at the head of
the outer `while (1)`, at the head of the inner `while (1)`. -/
inductive Mode where
  | Calibrating
  | Armed
  | Alarming
  deriving DecidableEq, Repr

/-- A control location together with the machine. -/
structure Device where
  mode : Mode
  hw : Machine

/-- The device when `main()` calls `init_configure()`. -/
def boot (sensor : Nat → Nat) : Device :=
  { mode := Mode.Calibrating, hw := main_init (reset sensor) }

/-- One step of `main()`: one loop test of the calibration gate (on exit
followed by `powerDown_setup(); sei();`), one pass of the outer loop, or one
pass of the inner loop. -/
def step (d : Device) : Device :=
  match d.mode with
  | Mode.Calibrating =>
    match init_configure_iter d.hw with
    | (true, m) => { mode := Mode.Calibrating, hw := m }
    | (false, m) => { mode := Mode.Armed, hw := sei (powerDown_setup m) }
  | Mode.Armed =>
    match main_loop_body d.hw with
    | (true, m) => { mode := Mode.Alarming, hw := m }
    | (false, m) => { mode := Mode.Armed, hw := m }
  | Mode.Alarming => { mode := Mode.Alarming, hw := alarm_burst d.hw }

/-- The device after `n` steps. -/
def run (n : Nat) (d : Device) : Device := step^[n] d

/-- The line that reports value `s`: its decimal digits, most significant
first and without leading zeros, then carriage return and line feed. -/
def decimalLine (s : Nat) : List Nat :=
  (if s = 0 then [48] else ((Nat.digits 10 s).reverse.map fun d => 48 + d)) ++ [13, 10]

/-- The 10-bit result the converter delivers for the `i`-th conversion of an
injected sequence: the value `ADC_read()` returns for it. -/
def sample (sensor : Nat → Nat) (i : Nat) : Nat := sensor i % 1024

/-- Duration in milliseconds of one call of `powerDown_watchDog()` with the
watchdog set up as in `WDTCSR`: number of naps times the watchdog time-out. -/
def sleepCycleMs (m : Machine) : Nat :=
  (napCount (powerDown_watchDog m).trace - napCount m.trace) * wdtPeriodMs m.WDTCSR

/-- Injected sequence of the alarm scenario: 300 at the calibration test, then
300 reported, 650 after the sleep, 900 from then on. -/
def alarmScenario (i : Nat) : Nat :=
  if i < 2 then 300 else if i = 2 then 650 else 900

/-- Injected sequence with a post-sleep sample of exactly 600: 300 at the
calibration test, 300 reported, then 600. -/
def floorScenario (i : Nat) : Nat :=
  if i < 2 then 300 else 600

/-- Injected sequence of the calibration scenario: 800, 800, 800, 390, and 390
from then on. -/
def calibrationScenario (i : Nat) : Nat :=
  if i < 3 then 800 else 390

/-- Injected sequence on which calibration takes one pass of its loop: 800,
800, and 300 from then on. -/
def onePassScenario (i : Nat) : Nat :=
  if i < 2 then 800 else 300

/-- An armed device on a constant sequence. -/
def armedOn (s : Nat) : Device :=
  { mode := Mode.Armed, hw := main_init (reset fun _ => s) }

/-- The characters `report` sends before the line end. -/
def reportChars (m : Machine) : List Nat :=
  cstr (store m.buffer (itoa (toInt16 m.digitalVal) 10))

/-! ## Auxiliary definitions of the proofs -/

/-- Decimal digits of `s` as characters, most significant first, no leading
zeros (`0` itself is the single digit `0`). -/
def decimalChars (s : Nat) : List Nat :=
  if s = 0 then [48] else (Nat.digits 10 s).reverse.map fun d => 48 + d

/-- The `j`-th toggle of a run that starts with `PORTD = p` leaves `p` with bit
0 flipped when `j` is even and `p` itself when `j` is odd. -/
def toggleEvents (p : Nat) (k : Nat) : List Event :=
  (List.range k).map fun j => Event.toggle (if j % 2 = 0 then p ^^^ 1 else p)

/-- The machine when the outer loop of `main` goes to sleep: after the first
read, the report and the 10 ms delay. -/
def beforeSleep (m : Machine) : Machine :=
  delay_ms 10 (report { (ADC_read m).2 with digitalVal := toUInt16 (ADC_read m).1 })

/-- The body of the loop of `init_configure()`, from the machine left by the
loop test. -/
def calBody (m1 : Machine) : Machine :=
  delay_ms 100 (report
    { (ADC_read { m1 with PORTB := m1.PORTB ||| (1 <<< LED) }).2 with
      digitalVal := toUInt16 (ADC_read { m1 with PORTB := m1.PORTB ||| (1 <<< LED) }).1 })

/-- Number of bytes the loop body of `init_configure()` sends. -/
def calBodyBytes (m1 : Machine) : Nat :=
  (reportChars
    { (ADC_read { m1 with PORTB := m1.PORTB ||| (1 <<< LED) }).2 with
      digitalVal := toUInt16 (ADC_read { m1 with PORTB := m1.PORTB ||| (1 <<< LED) }).1 }).length
    + 2

/-- Events of the buzzer: pin toggles and delays. -/
def isBuzzerEvent (e : Event) : Bool :=
  match e with
  | Event.toggle _ => true
  | Event.delay _ _ => true
  | _ => false

/-! ## Arithmetic of the conversions -/

theorem adc_word (r : Nat) : (r % 256 ||| (r / 256 % 4) <<< 8) % 65536 = r % 1024 := by
  have h : 2 ^ 8 * (r / 256 % 4) + r % 256 = 2 ^ 8 * (r / 256 % 4) ||| r % 256 :=
    Nat.mul_add_lt_is_or (Nat.mod_lt _ (by norm_num)) _
  rw [Nat.lor_comm, Nat.shiftLeft_eq, Nat.mul_comm, ← h]
  omega

theorem toInt16_small (w : Nat) (h : w < 32768) : toInt16 w = (w : Int) := by
  unfold toInt16
  have : w % 65536 = w := Nat.mod_eq_of_lt (by omega)
  simp [this, h]

theorem toUInt16_small (w : Nat) (h : w < 65536) : toUInt16 (w : Int) = w := by
  unfold toUInt16
  omega

/-! ## The sensor read -/

/-- The value `ADC_read()` returns is the next injected value, cut to the 10
bits of the converter. -/
theorem ADC_read_fst (m : Machine) :
    (ADC_read m).1 = ((m.sensor m.reads % 1024 : Nat) : Int) := by
  show toInt16 ((m.sensor m.reads % 256 ||| (m.sensor m.reads / 256 % 4) <<< 8) % 65536) = _
  rw [adc_word, toInt16_small _ (by omega)]

theorem ADC_read_trace (m : Machine) :
    (ADC_read m).2.trace
      = m.trace ++ [Event.adc m.PORTB ((m.sensor m.reads % 1024 : Nat) : Int)] := by
  rw [← ADC_read_fst]; rfl

@[simp] theorem ADC_read_reads (m : Machine) : (ADC_read m).2.reads = m.reads + 1 := rfl
@[simp] theorem ADC_read_sensor (m : Machine) : (ADC_read m).2.sensor = m.sensor := rfl
@[simp] theorem ADC_read_PORTB (m : Machine) : (ADC_read m).2.PORTB = m.PORTB := rfl
@[simp] theorem ADC_read_PORTD (m : Machine) : (ADC_read m).2.PORTD = m.PORTD := rfl
@[simp] theorem ADC_read_digitalVal (m : Machine) :
    (ADC_read m).2.digitalVal = m.digitalVal := rfl
@[simp] theorem ADC_read_buffer (m : Machine) : (ADC_read m).2.buffer = m.buffer := rfl

/-! ## The serial output -/

theorem sendAll_frame {α : Type} (f : Machine → α) (hf : ∀ c m, f (UART_send c m) = f m)
    (l : List Nat) (m : Machine) :
    f (l.foldl (fun m c => UART_send c m) m) = f m := by
  induction l generalizing m with
  | nil => rfl
  | cons c l ih => rw [List.foldl_cons, ih, hf]

theorem sendAll_trace (l : List Nat) (m : Machine) :
    (l.foldl (fun m c => UART_send c m) m).trace
      = m.trace ++ l.map (fun c => Event.tx m.PORTB (c % 256)) := by
  induction l generalizing m with
  | nil => simp
  | cons c l ih =>
    rw [List.foldl_cons, ih]
    simp [UART_send]

theorem UART_writeString_frame {α : Type} (f : Machine → α)
    (hf : ∀ c m, f (UART_send c m) = f m) (s : List Nat) (m : Machine) :
    f (UART_writeString s m) = f m :=
  sendAll_frame f hf _ m

theorem UART_writeString_trace (s : List Nat) (m : Machine) :
    (UART_writeString s m).trace
      = m.trace ++ (cstr s).map (fun c => Event.tx m.PORTB (c % 256)) :=
  sendAll_trace _ m

theorem report_trace (m : Machine) :
    (report m).trace
      = m.trace ++ ((reportChars m).map (fun c => Event.tx m.PORTB (c % 256))
          ++ [Event.tx m.PORTB 13, Event.tx m.PORTB 10]) := by
  have hP : (UART_writeString (store m.buffer (itoa (toInt16 m.digitalVal) 10))
      { m with buffer := store m.buffer (itoa (toInt16 m.digitalVal) 10) }).PORTB = m.PORTB :=
    UART_writeString_frame (fun m => m.PORTB) (fun _ _ => rfl) _ _
  simp only [report, UART_send, UART_writeString_trace, hP, reportChars]
  simp

theorem report_frame {α : Type} (f : Machine → α)
    (hf : ∀ c m, f (UART_send c m) = f m) (hb : ∀ b m, f { m with buffer := b } = f m)
    (m : Machine) : f (report m) = f m := by
  simp only [report, hf, UART_writeString_frame f hf, hb]

@[simp] theorem report_reads (m : Machine) : (report m).reads = m.reads :=
  report_frame (fun m => m.reads) (fun _ _ => rfl) (fun _ _ => rfl) m
@[simp] theorem report_sensor (m : Machine) : (report m).sensor = m.sensor :=
  report_frame (fun m => m.sensor) (fun _ _ => rfl) (fun _ _ => rfl) m
@[simp] theorem report_PORTB (m : Machine) : (report m).PORTB = m.PORTB :=
  report_frame (fun m => m.PORTB) (fun _ _ => rfl) (fun _ _ => rfl) m
@[simp] theorem report_PORTD (m : Machine) : (report m).PORTD = m.PORTD :=
  report_frame (fun m => m.PORTD) (fun _ _ => rfl) (fun _ _ => rfl) m
@[simp] theorem report_digitalVal (m : Machine) : (report m).digitalVal = m.digitalVal :=
  report_frame (fun m => m.digitalVal) (fun _ _ => rfl) (fun _ _ => rfl) m

theorem decimalLine_eq (s : Nat) : decimalLine s = decimalChars s ++ [13, 10] := rfl

theorem utoaRev_ten (k n : Nat) (hk : n < 10 ^ k) (hn : 0 < n) :
    utoaRev 10 k n = (Nat.digits 10 n).map fun d => 48 + d := by
  induction k generalizing n with
  | zero => simp at hk; omega
  | succ k ih =>
    rw [Nat.digits_def' (by norm_num) hn, utoaRev]
    have hd : digitChar (n % 10) = 48 + n % 10 := by
      unfold digitChar
      rw [if_pos (Nat.mod_lt _ (by norm_num))]
    by_cases h0 : n / 10 = 0
    · simp [h0, hd]
    · have h1 : n / 10 < 10 ^ k := by
        rw [pow_succ] at hk
        omega
      simp [h0, hd, ih (n / 10) h1 (by omega)]

theorem utoaRev_length_le (k n j : Nat) (hj : n < 10 ^ j) (h0 : 0 < j) :
    (utoaRev 10 k n).length ≤ j := by
  induction k generalizing n j with
  | zero => simp [utoaRev]
  | succ k ih =>
    rw [utoaRev]
    by_cases hz : n / 10 = 0
    · simp [hz]; omega
    · obtain ⟨i, rfl⟩ : ∃ i, j = i + 1 := ⟨j - 1, by omega⟩
      have hi : 0 < i := by
        rcases Nat.eq_zero_or_pos i with h | h
        · subst h; simp at hj; omega
        · exact h
      have h1 : n / 10 < 10 ^ i := by
        rw [pow_succ] at hj
        omega
      have := ih (n / 10) i h1 hi
      simp [hz]
      omega

/-- For a 10-bit value `itoa` stores the decimal digits and the NUL. -/
theorem itoa_decimal (s : Nat) (hs : s < 1024) :
    itoa (toInt16 s) 10 = decimalChars s ++ [0] := by
  have h1 : toInt16 s = (s : Int) := toInt16_small s (by omega)
  have h2 : toUInt16 (s : Int) = s := toUInt16_small s (by omega)
  have h3 : ¬ ((s : Int) < 0) := by omega
  unfold itoa
  rw [h1, if_neg (by omega), if_neg (fun h => h3 h.1), h2]
  unfold decimalChars
  by_cases hz : s = 0
  · subst hz; rfl
  · rw [if_neg hz, utoaRev_ten 16 s (by omega) (by omega), List.map_reverse]

theorem decimalChars_ne_zero (s c : Nat) (hc : c ∈ decimalChars s) : 48 ≤ c ∧ c ≤ 57 := by
  unfold decimalChars at hc
  by_cases hz : s = 0
  · simp [hz] at hc; omega
  · simp only [if_neg hz, List.mem_map, List.mem_reverse] at hc
    obtain ⟨d, hd, rfl⟩ := hc
    have := Nat.digits_lt_base (by norm_num : 1 < 10) hd
    omega

theorem decimalChars_length (s : Nat) (hs : s < 1024) :
    1 ≤ (decimalChars s).length ∧ (decimalChars s).length ≤ 4 := by
  unfold decimalChars
  by_cases hz : s = 0
  · simp [hz]
  · have h := utoaRev_length_le 16 s 4 (by omega) (by omega)
    rw [utoaRev_ten 16 s (by omega) (by omega)] at h
    have h2 : Nat.digits 10 s ≠ [] := by
      rw [Nat.digits_def' (by norm_num) (by omega)]; simp
    have h3 := List.length_pos.mpr h2
    simp only [List.length_map] at h
    simp [hz]
    omega

theorem cstr_append_nul (ds rest : List Nat) (h : ∀ c ∈ ds, c ≠ 0) :
    cstr (ds ++ 0 :: rest) = ds := by
  unfold cstr
  induction ds with
  | nil => simp
  | cons c ds ih =>
    have hc : c ≠ 0 := h c (by simp)
    simp [hc, ih (fun c hc => h c (by simp [hc]))]

theorem cstr_store (buf ds : List Nat) (h : ∀ c ∈ ds, c ≠ 0) :
    cstr (store buf (ds ++ [0])) = ds := by
  unfold store
  rw [List.append_assoc]
  exact cstr_append_nul ds _ h

theorem store_length (buf ds : List Nat) (h : ds.length ≤ buf.length) :
    (store buf ds).length = buf.length := by
  unfold store
  simp
  omega

theorem uartBytes_append (a b : List Event) : uartBytes (a ++ b) = uartBytes a ++ uartBytes b := by
  simp [uartBytes]

theorem uartBytes_tx (p : Nat) (l : List Nat) :
    uartBytes (l.map fun c => Event.tx p c) = l := by
  induction l with
  | nil => rfl
  | cons c l ih =>
    simp only [uartBytes, List.map_cons, List.filterMap_cons] at ih ⊢
    rw [ih]

/-- What one report of a 10-bit value sends. -/
theorem report_uartBytes (m : Machine) (hs : m.digitalVal < 1024) :
    uartBytes (report m).trace = uartBytes m.trace ++ decimalLine m.digitalVal := by
  have hc : reportChars m = decimalChars m.digitalVal := by
    unfold reportChars
    rw [itoa_decimal _ hs]
    exact cstr_store _ _ (fun c hc => by have := decimalChars_ne_zero _ c hc; omega)
  have hmod : (decimalChars m.digitalVal).map (fun c => Event.tx m.PORTB (c % 256))
      = (decimalChars m.digitalVal).map (fun c => Event.tx m.PORTB c) := by
    apply List.map_congr_left
    intro c hc
    have := decimalChars_ne_zero _ c hc
    rw [Nat.mod_eq_of_lt (by omega)]
  rw [report_trace, hc, hmod, uartBytes_append, uartBytes_append, uartBytes_tx, decimalLine_eq]
  rfl

theorem report_buffer (m : Machine) :
    (report m).buffer = store m.buffer (itoa (toInt16 m.digitalVal) 10) := by
  simp only [report]
  exact UART_writeString_frame (fun m => m.buffer) (fun _ _ => rfl) _ _

/-! ## Sleep -/

theorem powerDown_watchDog_loop_eq (k i : Nat) (m : Machine) (h : i + k = 15) :
    powerDown_watchDog_loop i m
      = { m with trace := m.trace ++ List.replicate k Event.nap } := by
  induction k generalizing i m with
  | zero =>
    rw [powerDown_watchDog_loop, if_neg (by omega)]
    simp
  | succ k ih =>
    rw [powerDown_watchDog_loop, if_pos (by omega), Nat.mod_eq_of_lt (by omega),
      ih (i + 1) _ (by omega)]
    simp [sleepInstr, List.replicate_succ]

theorem powerDown_watchDog_eq (m : Machine) :
    powerDown_watchDog m = { m with trace := m.trace ++ List.replicate 15 Event.nap } :=
  powerDown_watchDog_loop_eq 15 0 m rfl

theorem napCount_append (a b : List Event) : napCount (a ++ b) = napCount a + napCount b := by
  simp [napCount]

theorem napCount_replicate (k : Nat) : napCount (List.replicate k Event.nap) = k := by
  induction k with
  | zero => rfl
  | succ k ih =>
    rw [List.replicate_succ]
    simp only [napCount, List.countP_cons] at ih ⊢
    rw [ih]
    rfl

/-! ## Buzzer -/

theorem waitTOV0_cases (m : Machine) :
    waitTOV0 m = m
      ∨ waitTOV0 m = { m with TCNT0 := 0, TIFR0 := m.TIFR0 ||| (1 <<< TOV0) } := by
  unfold waitTOV0
  split
  · right; rfl
  · left; rfl

theorem waitTOV0_frame {α : Type} (f : Machine → α)
    (hf : ∀ (m : Machine) (a b : Nat), f { m with TCNT0 := a, TIFR0 := b } = f m)
    (m : Machine) : f (waitTOV0 m) = f m := by
  rcases waitTOV0_cases m with h | h <;> rw [h]
  exact hf m _ _

@[simp] theorem alarmTimer_PORTD (m : Machine) : (alarmTimer m).PORTD = m.PORTD ^^^ 1 := by
  show (waitTOV0 _).PORTD ^^^ (1 <<< 0) = _
  rw [waitTOV0_frame (fun m => m.PORTD) (fun _ _ _ => rfl)]
  rfl

theorem alarmTimer_trace (m : Machine) :
    (alarmTimer m).trace = m.trace ++ [Event.toggle (m.PORTD ^^^ 1)] := by
  show (waitTOV0 _).trace ++ [Event.toggle ((waitTOV0 _).PORTD ^^^ (1 <<< 0))] = _
  rw [waitTOV0_frame (fun m => m.PORTD) (fun _ _ _ => rfl),
    waitTOV0_frame (fun m => m.trace) (fun _ _ _ => rfl)]
  rfl

@[simp] theorem alarmTimer_reads (m : Machine) : (alarmTimer m).reads = m.reads := by
  show (waitTOV0 _).reads = _
  rw [waitTOV0_frame (fun m => m.reads) (fun _ _ _ => rfl)]

@[simp] theorem alarmTimer_sensor (m : Machine) : (alarmTimer m).sensor = m.sensor := by
  show (waitTOV0 _).sensor = _
  rw [waitTOV0_frame (fun m => m.sensor) (fun _ _ _ => rfl)]

@[simp] theorem alarmTimer_PORTB (m : Machine) : (alarmTimer m).PORTB = m.PORTB := by
  show (waitTOV0 _).PORTB = _
  rw [waitTOV0_frame (fun m => m.PORTB) (fun _ _ _ => rfl)]

@[simp] theorem alarmTimer_digitalVal (m : Machine) :
    (alarmTimer m).digitalVal = m.digitalVal := by
  show (waitTOV0 _).digitalVal = _
  rw [waitTOV0_frame (fun m => m.digitalVal) (fun _ _ _ => rfl)]

@[simp] theorem alarmTimer_buffer (m : Machine) : (alarmTimer m).buffer = m.buffer := by
  show (waitTOV0 _).buffer = _
  rw [waitTOV0_frame (fun m => m.buffer) (fun _ _ _ => rfl)]

theorem alarm_loop_eq (k i : Nat) (m : Machine) (h : i + k = 350) :
    alarm_loop i m = alarmTimer^[k] m := by
  induction k generalizing i m with
  | zero =>
    rw [alarm_loop, if_neg (by omega)]
    rfl
  | succ k ih =>
    rw [alarm_loop, if_pos (by omega), ih (i + 1) _ (by omega)]
    rfl

theorem xor_one_xor_one (p : Nat) : p ^^^ 1 ^^^ 1 = p := by
  rw [Nat.xor_assoc]
  simp

theorem alarmTimer_iterate (k : Nat) (m : Machine) :
    (alarmTimer^[k] m).PORTD = (if k % 2 = 0 then m.PORTD else m.PORTD ^^^ 1)
    ∧ (alarmTimer^[k] m).trace = m.trace ++ toggleEvents m.PORTD k
    ∧ (alarmTimer^[k] m).reads = m.reads
    ∧ (alarmTimer^[k] m).sensor = m.sensor
    ∧ (alarmTimer^[k] m).PORTB = m.PORTB
    ∧ (alarmTimer^[k] m).digitalVal = m.digitalVal
    ∧ (alarmTimer^[k] m).buffer = m.buffer := by
  induction k with
  | zero => simp [toggleEvents]
  | succ k ih =>
    obtain ⟨h1, h2, h3, h4, h5, h6, h7⟩ := ih
    rw [Function.iterate_succ_apply']
    refine ⟨?_, ?_, by simp [h3], by simp [h4], by simp [h5], by simp [h6], by simp [h7]⟩
    · rw [alarmTimer_PORTD, h1]
      rcases Nat.mod_two_eq_zero_or_one k with hk | hk
      · have : (k + 1) % 2 = 1 := by omega
        simp [hk, this]
      · have : (k + 1) % 2 = 0 := by omega
        simp [hk, this, xor_one_xor_one]
    · rw [alarmTimer_trace, h2, h1, toggleEvents, toggleEvents, List.range_succ, List.map_append,
        List.append_assoc]
      rcases Nat.mod_two_eq_zero_or_one k with hk | hk
      · simp [hk]
      · simp [hk, xor_one_xor_one]

theorem toggleCount_append (a b : List Event) :
    toggleCount (a ++ b) = toggleCount a + toggleCount b := by
  simp [toggleCount]

theorem toggleCount_toggleEvents (p k : Nat) : toggleCount (toggleEvents p k) = k := by
  unfold toggleCount toggleEvents
  rw [List.countP_map, List.countP_eq_length.mpr]
  · simp
  · intro j _
    rfl

theorem main_loop_body_eq (m : Machine) :
    main_loop_body m
      = (decide ((ADC_read (powerDown_watchDog (beforeSleep m))).1 > 600),
          (ADC_read (powerDown_watchDog (beforeSleep m))).2) := rfl

@[simp] theorem beforeSleep_reads (m : Machine) : (beforeSleep m).reads = m.reads + 1 := by
  simp [beforeSleep, delay_ms]

@[simp] theorem beforeSleep_sensor (m : Machine) : (beforeSleep m).sensor = m.sensor := by
  simp [beforeSleep, delay_ms]

@[simp] theorem beforeSleep_PORTB (m : Machine) : (beforeSleep m).PORTB = m.PORTB := by
  simp [beforeSleep, delay_ms]

@[simp] theorem beforeSleep_PORTD (m : Machine) : (beforeSleep m).PORTD = m.PORTD := by
  simp [beforeSleep, delay_ms]

theorem beforeSleep_digitalVal (m : Machine) :
    (beforeSleep m).digitalVal = m.sensor m.reads % 1024 := by
  simp only [beforeSleep, delay_ms, report_digitalVal, ADC_read_fst]
  exact toUInt16_small _ (by omega)

theorem beforeSleep_uartBytes (m : Machine) :
    uartBytes (beforeSleep m).trace
      = uartBytes m.trace ++ decimalLine (m.sensor m.reads % 1024) := by
  have hv : toUInt16 (ADC_read m).1 = m.sensor m.reads % 1024 := by
    rw [ADC_read_fst]; exact toUInt16_small _ (by omega)
  have hlt : m.sensor m.reads % 1024 < 1024 := Nat.mod_lt _ (by norm_num)
  simp only [beforeSleep, delay_ms, hv, uartBytes_append]
  rw [report_uartBytes _ hlt]
  simp only [ADC_read_trace, uartBytes_append]
  simp [uartBytes]

theorem main_loop_body_fst (m : Machine) :
    (main_loop_body m).1 = decide (600 < m.sensor (m.reads + 1) % 1024) := by
  rw [main_loop_body_eq]
  simp only [ADC_read_fst, powerDown_watchDog_eq, beforeSleep_reads, beforeSleep_sensor]
  apply decide_eq_decide.mpr
  constructor <;> intro h <;> omega

@[simp] theorem main_loop_body_reads (m : Machine) :
    (main_loop_body m).2.reads = m.reads + 2 := by
  rw [main_loop_body_eq]
  simp [powerDown_watchDog_eq]

@[simp] theorem main_loop_body_sensor (m : Machine) :
    (main_loop_body m).2.sensor = m.sensor := by
  rw [main_loop_body_eq]
  simp [powerDown_watchDog_eq]

theorem main_loop_body_uartBytes (m : Machine) :
    uartBytes (main_loop_body m).2.trace
      = uartBytes m.trace ++ decimalLine (m.sensor m.reads % 1024) := by
  rw [main_loop_body_eq]
  simp only [ADC_read_trace, powerDown_watchDog_eq, uartBytes_append, beforeSleep_uartBytes]
  have h1 : uartBytes (List.replicate 15 Event.nap) = [] := by decide
  rw [h1]
  simp [uartBytes]

theorem step_armed_mode (d : Device) (h : d.mode = Mode.Armed) :
    (step d).mode
      = if 600 < d.hw.sensor (d.hw.reads + 1) % 1024 then Mode.Alarming else Mode.Armed := by
  have hb := main_loop_body_fst d.hw
  unfold step
  rw [h]
  rcases hm : main_loop_body d.hw with ⟨b, m⟩
  rw [hm] at hb
  simp only at hb
  subst hb
  by_cases hc : 600 < d.hw.sensor (d.hw.reads + 1) % 1024 <;> simp [hc]

theorem step_armed_hw (d : Device) (h : d.mode = Mode.Armed) :
    (step d).hw = (main_loop_body d.hw).2 := by
  unfold step
  rw [h]
  rcases hm : main_loop_body d.hw with ⟨b, m⟩
  cases b <;> rfl

theorem init_configure_iter_eq (m : Machine) :
    init_configure_iter m
      = if (ADC_read m).1 > 400 then (true, calBody (ADC_read m).2)
        else (false, { (ADC_read m).2 with PORTB := (ADC_read m).2.PORTB &&& not8 (1 <<< LED) }) :=
  rfl

theorem init_configure_iter_high (m : Machine) (h : 400 < m.sensor m.reads % 1024) :
    init_configure_iter m = (true, calBody (ADC_read m).2) := by
  rw [init_configure_iter_eq, if_pos]
  rw [ADC_read_fst]
  omega

theorem init_configure_iter_low (m : Machine) (h : m.sensor m.reads % 1024 ≤ 400) :
    init_configure_iter m
      = (false, { (ADC_read m).2 with PORTB := m.PORTB &&& not8 (1 <<< LED) }) := by
  rw [init_configure_iter_eq, if_neg]
  · rfl
  · rw [ADC_read_fst]
    omega

@[simp] theorem calBody_reads (m : Machine) : (calBody m).reads = m.reads + 1 := by
  simp [calBody, delay_ms]

@[simp] theorem calBody_sensor (m : Machine) : (calBody m).sensor = m.sensor := by
  simp [calBody, delay_ms]

@[simp] theorem calBody_PORTB (m : Machine) : (calBody m).PORTB = m.PORTB ||| 2 := by
  simp [calBody, delay_ms, LED]

@[simp] theorem calBody_PORTD (m : Machine) : (calBody m).PORTD = m.PORTD := by
  simp [calBody, delay_ms]

theorem calBody_uartBytes (m : Machine) :
    uartBytes (calBody m).trace
      = uartBytes m.trace ++ decimalLine (m.sensor m.reads % 1024) := by
  have hv : toUInt16 (ADC_read { m with PORTB := m.PORTB ||| (1 <<< LED) }).1
      = m.sensor m.reads % 1024 := by
    rw [ADC_read_fst]; exact toUInt16_small _ (by omega)
  have hlt : m.sensor m.reads % 1024 < 1024 := Nat.mod_lt _ (by norm_num)
  simp only [calBody, delay_ms, hv, uartBytes_append]
  rw [report_uartBytes _ hlt]
  simp only [ADC_read_trace, uartBytes_append]
  simp [uartBytes]

theorem led_set_then_cleared (p : Nat) :
    (p ||| 2) &&& not8 (1 <<< LED) = p &&& not8 (1 <<< LED) := by
  rw [Nat.and_distrib_right]
  have : 2 &&& not8 (1 <<< LED) = 0 := by decide
  rw [this, Nat.or_zero]

/-- The loop of `init_configure()` leaves after `k` passes when the samples it
tests are above 400 for the first `k` tests and at most 400 at the next. -/
theorem init_configure_returns (k : Nat) (m : Machine)
    (hhigh : ∀ j, j < k → 400 < m.sensor (m.reads + 2 * j) % 1024)
    (hlow : m.sensor (m.reads + 2 * k) % 1024 ≤ 400) (fuel : Nat) (hf : k < fuel) :
    ∃ r, init_configure fuel m = some r
      ∧ r.reads = m.reads + 2 * k + 1
      ∧ r.sensor = m.sensor
      ∧ r.PORTB = m.PORTB &&& not8 (1 <<< LED)
      ∧ uartBytes r.trace = uartBytes m.trace
          ++ ((List.range k).map fun j =>
                decimalLine (m.sensor (m.reads + 2 * j + 1) % 1024)).flatten := by
  induction k generalizing m fuel with
  | zero =>
    obtain ⟨f, rfl⟩ : ∃ f, fuel = f + 1 := ⟨fuel - 1, by omega⟩
    refine ⟨{ (ADC_read m).2 with PORTB := m.PORTB &&& not8 (1 <<< LED) }, ?_, ?_, ?_, ?_, ?_⟩
    · rw [init_configure, init_configure_iter_low m (by simpa using hlow)]
    · simp
    · simp
    · simp
    · simp [ADC_read_trace, uartBytes_append, uartBytes]
  | succ k ih =>
    obtain ⟨f, rfl⟩ : ∃ f, fuel = f + 1 := ⟨fuel - 1, by omega⟩
    have h0 : 400 < m.sensor m.reads % 1024 := by simpa using hhigh 0 (by omega)
    have hr : (calBody (ADC_read m).2).reads = m.reads + 2 := by simp
    have hs : (calBody (ADC_read m).2).sensor = m.sensor := by simp
    obtain ⟨r, h1, h2, h3, h4, h5⟩ := ih (calBody (ADC_read m).2)
      (by
        intro j hj
        rw [hr, hs]
        have := hhigh (j + 1) (by omega)
        rwa [show m.reads + 2 * (j + 1) = m.reads + 2 + 2 * j by ring] at this)
      (by
        rw [hr, hs]
        rwa [show m.reads + 2 * (k + 1) = m.reads + 2 + 2 * k by ring] at hlow)
      f (by omega)
    refine ⟨r, ?_, ?_, ?_, ?_, ?_⟩
    · rw [init_configure, init_configure_iter_high m h0]
      exact h1
    · rw [h2, hr]; ring
    · rw [h3, hs]
    · rw [h4]
      simp only [calBody_PORTB, ADC_read_PORTB]
      exact led_set_then_cleared _
    · have hidx : ∀ j, m.reads + 2 + 2 * j + 1 = m.reads + 2 * (j + 1) + 1 := fun j => by ring
      rw [h5, calBody_uartBytes, hr, hs]
      simp only [ADC_read_trace, uartBytes_append, ADC_read_sensor, ADC_read_reads, hidx]
      rw [List.range_succ_eq_map]
      simp [uartBytes, Function.comp_def]

/-- The loop of `init_configure()` is still running after any number of tests
when every sample it tests is above 400. -/
theorem init_configure_loops (fuel : Nat) (m : Machine)
    (hhigh : ∀ j, 400 < m.sensor (m.reads + 2 * j) % 1024) :
    init_configure fuel m = none := by
  induction fuel generalizing m with
  | zero => rfl
  | succ f ih =>
    have h0 : 400 < m.sensor m.reads % 1024 := by simpa using hhigh 0
    rw [init_configure, init_configure_iter_high m h0]
    apply ih
    intro j
    have hr : (calBody (ADC_read m).2).reads = m.reads + 2 := by simp
    have hs : (calBody (ADC_read m).2).sensor = m.sensor := by simp
    rw [hr, hs]
    have := hhigh (j + 1)
    rwa [show m.reads + 2 * (j + 1) = m.reads + 2 + 2 * j by ring] at this

/-! ## The status indicator during calibration -/

theorem portbAtReads_append (a b : List Event) :
    portbAtReads (a ++ b) = portbAtReads a ++ portbAtReads b := by
  simp [portbAtReads]

theorem portbAtSends_append (a b : List Event) :
    portbAtSends (a ++ b) = portbAtSends a ++ portbAtSends b := by
  simp [portbAtSends]

theorem portbAtSends_tx (p : Nat) (f : Nat → Nat) (l : List Nat) :
    portbAtSends (l.map fun c => Event.tx p (f c)) = List.replicate l.length p := by
  induction l with
  | nil => rfl
  | cons c l ih =>
    simp only [portbAtSends, List.map_cons, List.filterMap_cons, List.length_cons,
      List.replicate_succ] at ih ⊢
    rw [ih]

theorem portbAtReads_tx (p : Nat) (f : Nat → Nat) (l : List Nat) :
    portbAtReads (l.map fun c => Event.tx p (f c)) = [] := by
  induction l with
  | nil => rfl
  | cons c l ih =>
    simp only [portbAtReads, List.map_cons, List.filterMap_cons] at ih ⊢
    rw [ih]

theorem report_portbAtReads (m : Machine) :
    portbAtReads (report m).trace = portbAtReads m.trace := by
  rw [report_trace, portbAtReads_append, portbAtReads_append, portbAtReads_tx]
  simp [portbAtReads]

theorem report_portbAtSends (m : Machine) :
    portbAtSends (report m).trace
      = portbAtSends m.trace ++ List.replicate ((reportChars m).length + 2) m.PORTB := by
  rw [report_trace, portbAtSends_append, portbAtSends_append, portbAtSends_tx]
  simp [portbAtSends, List.replicate_add]

theorem calBody_portbAtReads (m : Machine) :
    portbAtReads (calBody m).trace = portbAtReads m.trace ++ [m.PORTB ||| 2] := by
  simp only [calBody, delay_ms, portbAtReads_append, report_portbAtReads, ADC_read_trace]
  simp [portbAtReads, LED]

theorem calBody_portbAtSends (m : Machine) :
    ∃ n, portbAtSends (calBody m).trace
      = portbAtSends m.trace ++ List.replicate n (m.PORTB ||| 2) := by
  refine ⟨calBodyBytes m, ?_⟩
  simp only [calBody, calBodyBytes, delay_ms, portbAtSends_append, report_portbAtSends,
    ADC_read_trace]
  simp only [ADC_read_PORTB]
  simp [portbAtSends, LED]

/-- If `init_configure()` returns, it does so at a loop test that found a
sample of at most 400, after tests that all found samples above 400. -/
theorem init_configure_some_inv (fuel : Nat) (m r : Machine)
    (h : init_configure fuel m = some r) :
    ∃ k, k < fuel ∧ (∀ j, j < k → 400 < m.sensor (m.reads + 2 * j) % 1024)
      ∧ m.sensor (m.reads + 2 * k) % 1024 ≤ 400 := by
  induction fuel generalizing m with
  | zero => simp [init_configure] at h
  | succ f ih =>
    by_cases h0 : 400 < m.sensor m.reads % 1024
    · rw [init_configure, init_configure_iter_high m h0] at h
      obtain ⟨k, hk, hhigh, hlow⟩ := ih _ h
      have hr : (calBody (ADC_read m).2).reads = m.reads + 2 := by simp
      have hs : (calBody (ADC_read m).2).sensor = m.sensor := by simp
      rw [hr, hs] at hhigh hlow
      refine ⟨k + 1, by omega, ?_, ?_⟩
      · intro j hj
        rcases j with _ | j
        · simpa using h0
        · have := hhigh j (by omega)
          rwa [show m.reads + 2 * (j + 1) = m.reads + 2 + 2 * j by ring]
      · rwa [show m.reads + 2 * (k + 1) = m.reads + 2 + 2 * k by ring]
    · exact ⟨0, by omega, by intro j hj; omega, by simpa using Nat.le_of_not_lt h0⟩

/-- The `PORTB` snapshots of a returning calibration: the first read sees
`PORTB` as on entry, every later read and every sent byte sees it with the
`LED` bit set. -/
theorem init_configure_led (k : Nat) (m r : Machine) (fuel : Nat)
    (hhigh : ∀ j, j < k → 400 < m.sensor (m.reads + 2 * j) % 1024)
    (hlow : m.sensor (m.reads + 2 * k) % 1024 ≤ 400)
    (h : init_configure fuel m = some r) :
    portbAtReads r.trace
        = portbAtReads m.trace ++ m.PORTB :: List.replicate (2 * k) (m.PORTB ||| 2)
      ∧ ∃ n, portbAtSends r.trace
        = portbAtSends m.trace ++ List.replicate n (m.PORTB ||| 2) := by
  induction k generalizing m fuel with
  | zero =>
    obtain ⟨f, rfl⟩ : ∃ f, fuel = f + 1 := by
      rcases fuel with _ | f
      · simp [init_configure] at h
      · exact ⟨f, rfl⟩
    rw [init_configure, init_configure_iter_low m (by simpa using hlow)] at h
    simp only [Option.some.injEq] at h
    subst h
    constructor
    · simp [ADC_read_trace, portbAtReads_append, portbAtReads]
    · exact ⟨0, by simp [ADC_read_trace, portbAtSends_append, portbAtSends]⟩
  | succ k ih =>
    obtain ⟨f, rfl⟩ : ∃ f, fuel = f + 1 := by
      rcases fuel with _ | f
      · simp [init_configure] at h
      · exact ⟨f, rfl⟩
    have h0 : 400 < m.sensor m.reads % 1024 := by simpa using hhigh 0 (by omega)
    rw [init_configure, init_configure_iter_high m h0] at h
    have hr : (calBody (ADC_read m).2).reads = m.reads + 2 := by simp
    have hs : (calBody (ADC_read m).2).sensor = m.sensor := by simp
    obtain ⟨h1, n, h2⟩ := ih (calBody (ADC_read m).2) f
      (by
        intro j hj
        rw [hr, hs]
        have := hhigh (j + 1) (by omega)
        rwa [show m.reads + 2 * (j + 1) = m.reads + 2 + 2 * j by ring] at this)
      (by
        rw [hr, hs]
        rwa [show m.reads + 2 * (k + 1) = m.reads + 2 + 2 * k by ring] at hlow)
      h
    obtain ⟨n0, h3⟩ := calBody_portbAtSends (ADC_read m).2
    have hor : m.PORTB ||| 2 ||| 2 = m.PORTB ||| 2 := by
      rw [Nat.lor_assoc]; rfl
    constructor
    · rw [h1, calBody_portbAtReads]
      simp only [calBody_PORTB, ADC_read_PORTB, ADC_read_trace, portbAtReads_append, hor]
      rw [show 2 * (k + 1) = 2 * k + 1 + 1 by ring, List.replicate_succ, List.replicate_succ]
      simp [portbAtReads]
    · refine ⟨n0 + n, ?_⟩
      rw [h2, h3, List.replicate_add]
      simp only [calBody_PORTB, ADC_read_PORTB, ADC_read_trace, portbAtSends_append, hor]
      simp [portbAtSends]

/-! ## Steps of `main` -/

theorem run_succ (n : Nat) (d : Device) : run (n + 1) d = step (run n d) :=
  Function.iterate_succ_apply' step n d

theorem step_calibrating_high (d : Device) (h : d.mode = Mode.Calibrating)
    (hs : 400 < d.hw.sensor d.hw.reads % 1024) :
    step d = { mode := Mode.Calibrating, hw := calBody (ADC_read d.hw).2 } := by
  unfold step
  rw [h]
  simp only [init_configure_iter_high d.hw hs]

theorem step_calibrating_low (d : Device) (h : d.mode = Mode.Calibrating)
    (hs : d.hw.sensor d.hw.reads % 1024 ≤ 400) :
    step d = { mode := Mode.Armed,
               hw := sei (powerDown_setup
                 { (ADC_read d.hw).2 with PORTB := d.hw.PORTB &&& not8 (1 <<< LED) }) } := by
  unfold step
  rw [h]
  simp only [init_configure_iter_low d.hw hs]

theorem step_alarming (d : Device) (h : d.mode = Mode.Alarming) :
    step d = { mode := Mode.Alarming, hw := alarm_burst d.hw } := by
  unfold step
  rw [h]

theorem alarm_loop_iterate (m : Machine) : alarm_loop 0 m = alarmTimer^[350] m :=
  alarm_loop_eq 350 0 m rfl

theorem alarm_burst_trace (m : Machine) :
    (alarm_burst m).trace
      = m.trace ++ (toggleEvents m.PORTD 350 ++ [Event.delay (m.PORTD &&& 254) 100]) := by
  simp only [alarm_burst, delay_ms, alarm_loop_iterate, (alarmTimer_iterate 350 m).2.1,
    (alarmTimer_iterate 350 m).1, List.append_assoc]
  rfl

theorem alarm_burst_PORTD (m : Machine) : (alarm_burst m).PORTD = m.PORTD &&& 254 := by
  simp only [alarm_burst, delay_ms, alarm_loop_iterate, (alarmTimer_iterate 350 m).1]
  rfl

@[simp] theorem alarm_burst_reads (m : Machine) : (alarm_burst m).reads = m.reads := by
  simp only [alarm_burst, delay_ms, alarm_loop_iterate, (alarmTimer_iterate 350 m).2.2.1]

@[simp] theorem alarm_burst_sensor (m : Machine) : (alarm_burst m).sensor = m.sensor := by
  simp only [alarm_burst, delay_ms, alarm_loop_iterate, (alarmTimer_iterate 350 m).2.2.2.1]

@[simp] theorem alarm_burst_PORTB (m : Machine) : (alarm_burst m).PORTB = m.PORTB := by
  simp only [alarm_burst, delay_ms, alarm_loop_iterate, (alarmTimer_iterate 350 m).2.2.2.2.1]

theorem uartBytes_buzzer (t : List Event) (h : ∀ e ∈ t, isBuzzerEvent e = true) :
    uartBytes t = [] := by
  induction t with
  | nil => rfl
  | cons e t ih =>
    have he := h e (by simp)
    have ht := ih (fun e he => h e (by simp [he]))
    unfold uartBytes at ht ⊢
    cases e <;> simp_all [isBuzzerEvent]

theorem portbAtReads_buzzer (t : List Event) (h : ∀ e ∈ t, isBuzzerEvent e = true) :
    portbAtReads t = [] := by
  induction t with
  | nil => rfl
  | cons e t ih =>
    have he := h e (by simp)
    have ht := ih (fun e he => h e (by simp [he]))
    unfold portbAtReads at ht ⊢
    cases e <;> simp_all [isBuzzerEvent]

theorem toggleEvents_buzzer (p k : Nat) : ∀ e ∈ toggleEvents p k, isBuzzerEvent e = true := by
  intro e he
  unfold toggleEvents at he
  simp only [List.mem_map] at he
  obtain ⟨j, _, rfl⟩ := he
  rfl

theorem run_alarming (n : Nat) (d : Device) (h : d.mode = Mode.Alarming) :
    (run n d).mode = Mode.Alarming
      ∧ (run n d).hw.reads = d.hw.reads
      ∧ (run n d).hw.sensor = d.hw.sensor
      ∧ ∃ t, (run n d).hw.trace = d.hw.trace ++ t ∧ ∀ e ∈ t, isBuzzerEvent e = true := by
  induction n with
  | zero => exact ⟨h, rfl, rfl, [], by simp [run], by simp⟩
  | succ n ih =>
    obtain ⟨h1, h2, h3, t, h4, h5⟩ := ih
    rw [run_succ, step_alarming _ h1]
    refine ⟨rfl, by simp [h2], by simp [h3], t ++ (toggleEvents (run n d).hw.PORTD 350
      ++ [Event.delay ((run n d).hw.PORTD &&& 254) 100]), ?_, ?_⟩
    · simp only [alarm_burst_trace, h4, List.append_assoc]
    · intro e he
      simp only [List.mem_append, List.mem_singleton] at he
      rcases he with he | he | he
      · exact h5 e he
      · exact toggleEvents_buzzer _ _ e he
      · subst he; rfl

theorem run_one_boot (s : Nat → Nat) (h : s 0 % 1024 ≤ 400) :
    (run 1 (boot s)).mode = Mode.Armed
      ∧ (run 1 (boot s)).hw.reads = 1
      ∧ (run 1 (boot s)).hw.sensor = s := by
  have h1 : run 1 (boot s) = step (boot s) := rfl
  rw [h1, step_calibrating_low (boot s) rfl h]
  exact ⟨rfl, rfl, rfl⟩

theorem alarmScenario_alarms :
    (run 2 (boot alarmScenario)).mode = Mode.Alarming
      ∧ (run 2 (boot alarmScenario)).hw.reads = 3
      ∧ (run 2 (boot alarmScenario)).hw.sensor = alarmScenario := by
  obtain ⟨h1, h2, h3⟩ := run_one_boot alarmScenario (by decide)
  rw [run_succ]
  refine ⟨?_, ?_, ?_⟩
  · rw [step_armed_mode _ h1, h2, h3]
    decide
  · rw [step_armed_hw _ h1, main_loop_body_reads, h2]
  · rw [step_armed_hw _ h1, main_loop_body_sensor, h3]

/-! ## The claims -/

/-- C1, as amended: while Armed the alarm test of `main()` fires, and the loop
moves to Alarming, if and only if the post-sleep `ADC_read()` value is strictly
above 600; at 600 and below the device stays Armed. -/
theorem alarm_test_fires_iff_above_600 (d : Device) (hA : d.mode = Mode.Armed) :
    (ADC_read (powerDown_watchDog (beforeSleep d.hw))).1
        = ((sample d.hw.sensor (d.hw.reads + 1) : Nat) : Int)
      ∧ ((main_loop_body d.hw).1 = true ↔ 600 < sample d.hw.sensor (d.hw.reads + 1))
      ∧ ((step d).mode = Mode.Alarming ↔ 600 < sample d.hw.sensor (d.hw.reads + 1))
      ∧ ((step d).mode = Mode.Armed ↔ sample d.hw.sensor (d.hw.reads + 1) ≤ 600) := by
  unfold sample
  refine ⟨?_, ?_, ?_, ?_⟩
  · rw [ADC_read_fst]
    simp [powerDown_watchDog_eq]
  · rw [main_loop_body_fst]
    simp
  · rw [step_armed_mode d hA]
    by_cases h : 600 < d.hw.sensor (d.hw.reads + 1) % 1024 <;> simp [h]
  · rw [step_armed_mode d hA]
    by_cases h : 600 < d.hw.sensor (d.hw.reads + 1) % 1024 <;> simp [h]
    omega

/-- Witness of C1 at an armed device whose samples are all 601. -/
theorem alarm_test_fires_iff_above_600_witness :
    (armedOn 601).mode = Mode.Armed
      ∧ ((ADC_read (powerDown_watchDog (beforeSleep (armedOn 601).hw))).1
          = ((sample (armedOn 601).hw.sensor ((armedOn 601).hw.reads + 1) : Nat) : Int)
        ∧ ((main_loop_body (armedOn 601).hw).1 = true
            ↔ 600 < sample (armedOn 601).hw.sensor ((armedOn 601).hw.reads + 1))
        ∧ ((step (armedOn 601)).mode = Mode.Alarming
            ↔ 600 < sample (armedOn 601).hw.sensor ((armedOn 601).hw.reads + 1))
        ∧ ((step (armedOn 601)).mode = Mode.Armed
            ↔ sample (armedOn 601).hw.sensor ((armedOn 601).hw.reads + 1) ≤ 600)) :=
  ⟨rfl, alarm_test_fires_iff_above_600 (armedOn 601) rfl⟩

/-- C1 as stated fails at the floor itself: after calibration on
`floorScenario` the device is Armed, its post-sleep sample is 600, which is at
or above 600, and the next pass of the main loop leaves it Armed. -/
theorem sample_600_does_not_alarm :
    (run 1 (boot floorScenario)).mode = Mode.Armed
      ∧ sample (run 1 (boot floorScenario)).hw.sensor
          ((run 1 (boot floorScenario)).hw.reads + 1) = 600
      ∧ 600 ≥ 600
      ∧ (step (run 1 (boot floorScenario))).mode = Mode.Armed
      ∧ (step (run 1 (boot floorScenario))).mode ≠ Mode.Alarming := by
  obtain ⟨h1, h2, h3⟩ := run_one_boot floorScenario (by decide)
  have hm : (step (run 1 (boot floorScenario))).mode = Mode.Armed := by
    rw [step_armed_mode _ h1, h2, h3]
    decide
  refine ⟨h1, ?_, le_refl _, hm, ?_⟩
  · rw [h2, h3]
    decide
  · rw [hm]
    decide

/-- C4: Alarming is terminal.  From a device in the alarm branch, no number of
further steps leaves Alarming, performs a sensor read or sends a byte: the
read counter, the bytes sent and the recorded reads stay as they are, and the
only events added are pin toggles and delays. -/
theorem alarming_is_terminal (d : Device) (h : d.mode = Mode.Alarming) (n : Nat) :
    (run n d).mode = Mode.Alarming
      ∧ (run n d).mode ≠ Mode.Armed
      ∧ (run n d).mode ≠ Mode.Calibrating
      ∧ (run n d).hw.reads = d.hw.reads
      ∧ uartBytes (run n d).hw.trace = uartBytes d.hw.trace
      ∧ portbAtReads (run n d).hw.trace = portbAtReads d.hw.trace
      ∧ ∃ t, (run n d).hw.trace = d.hw.trace ++ t ∧ ∀ e ∈ t, isBuzzerEvent e = true := by
  obtain ⟨h1, h2, _, t, h4, h5⟩ := run_alarming n d h
  refine ⟨h1, by rw [h1]; decide, by rw [h1]; decide, h2, ?_, ?_, t, h4, h5⟩
  · rw [h4, uartBytes_append, uartBytes_buzzer t h5, List.append_nil]
  · rw [h4, portbAtReads_append, portbAtReads_buzzer t h5, List.append_nil]

/-- Witness of C4 on the alarm scenario: reported sample 300, post-sleep sample
650; the device is Alarming after three reads and five further steps read
nothing more. -/
theorem alarming_is_terminal_witness :
    (run 2 (boot alarmScenario)).mode = Mode.Alarming
      ∧ (run 2 (boot alarmScenario)).hw.reads = 3
      ∧ ((run 5 (run 2 (boot alarmScenario))).mode = Mode.Alarming
        ∧ (run 5 (run 2 (boot alarmScenario))).mode ≠ Mode.Armed
        ∧ (run 5 (run 2 (boot alarmScenario))).mode ≠ Mode.Calibrating
        ∧ (run 5 (run 2 (boot alarmScenario))).hw.reads = (run 2 (boot alarmScenario)).hw.reads
        ∧ uartBytes (run 5 (run 2 (boot alarmScenario))).hw.trace
            = uartBytes (run 2 (boot alarmScenario)).hw.trace
        ∧ portbAtReads (run 5 (run 2 (boot alarmScenario))).hw.trace
            = portbAtReads (run 2 (boot alarmScenario)).hw.trace
        ∧ ∃ t, (run 5 (run 2 (boot alarmScenario))).hw.trace
            = (run 2 (boot alarmScenario)).hw.trace ++ t ∧ ∀ e ∈ t, isBuzzerEvent e = true) :=
  ⟨alarmScenario_alarms.1, alarmScenario_alarms.2.1,
    alarming_is_terminal (run 2 (boot alarmScenario)) alarmScenario_alarms.1 5⟩

/-- C5: if each of the first `n` post-sleep samples is below 600, then after
`n` passes of the main loop the device is still Armed, has read exactly `2 n`
samples and has sent exactly `n` lines, the `k`-th being the line of the
`k`-th pass's pre-sleep sample. -/
theorem armed_cycles (d : Device) (n : Nat) (hA : d.mode = Mode.Armed)
    (hlow : ∀ k, k < n → sample d.hw.sensor (d.hw.reads + 2 * k + 1) < 600) :
    (run n d).mode = Mode.Armed
      ∧ (run n d).hw.reads = d.hw.reads + 2 * n
      ∧ (run n d).hw.sensor = d.hw.sensor
      ∧ uartBytes (run n d).hw.trace
          = uartBytes d.hw.trace
            ++ ((List.range n).map fun k =>
                  decimalLine (sample d.hw.sensor (d.hw.reads + 2 * k))).flatten
      ∧ ((List.range n).map fun k =>
            decimalLine (sample d.hw.sensor (d.hw.reads + 2 * k))).length = n := by
  have core : (run n d).mode = Mode.Armed
      ∧ (run n d).hw.reads = d.hw.reads + 2 * n
      ∧ (run n d).hw.sensor = d.hw.sensor
      ∧ uartBytes (run n d).hw.trace
          = uartBytes d.hw.trace
            ++ ((List.range n).map fun k =>
                  decimalLine (sample d.hw.sensor (d.hw.reads + 2 * k))).flatten := by
    induction n with
    | zero => exact ⟨hA, rfl, rfl, by simp [run]⟩
    | succ n ih =>
      obtain ⟨h1, h2, h3, h4⟩ := ih (fun k hk => hlow k (by omega))
      have hl := hlow n (by omega)
      unfold sample at hl
      rw [run_succ]
      refine ⟨?_, ?_, ?_, ?_⟩
      · rw [step_armed_mode _ h1, h2, h3, if_neg (by omega)]
      · rw [step_armed_hw _ h1, main_loop_body_reads, h2]
        ring
      · rw [step_armed_hw _ h1, main_loop_body_sensor, h3]
      · rw [step_armed_hw _ h1, main_loop_body_uartBytes, h4, h2, h3, List.range_succ,
          List.map_append, List.flatten_append, List.append_assoc]
        simp [sample]
  exact ⟨core.1, core.2.1, core.2.2.1, core.2.2.2, by simp⟩

/-- Witness of C5: reported sample 300 and post-sleep sample 300, five times. -/
theorem armed_cycles_witness :
    (armedOn 300).mode = Mode.Armed
      ∧ (∀ k, k < 5 →
          sample (armedOn 300).hw.sensor ((armedOn 300).hw.reads + 2 * k + 1) < 600)
      ∧ ((run 5 (armedOn 300)).mode = Mode.Armed
        ∧ (run 5 (armedOn 300)).hw.reads = (armedOn 300).hw.reads + 2 * 5
        ∧ (run 5 (armedOn 300)).hw.sensor = (armedOn 300).hw.sensor
        ∧ uartBytes (run 5 (armedOn 300)).hw.trace
            = uartBytes (armedOn 300).hw.trace
              ++ ((List.range 5).map fun k =>
                    decimalLine (sample (armedOn 300).hw.sensor
                      ((armedOn 300).hw.reads + 2 * k))).flatten
        ∧ ((List.range 5).map fun k =>
              decimalLine (sample (armedOn 300).hw.sensor
                ((armedOn 300).hw.reads + 2 * k))).length = 5) :=
  ⟨rfl, fun _ _ => (by decide : 300 % 1024 < 600),
    armed_cycles (armedOn 300) 5 rfl (fun _ _ => (by decide : 300 % 1024 < 600))⟩

/-- C6: `powerDown_watchDog()` returns after exactly 15 `sleep` instructions
whatever the machine, and changes nothing but the trace, to which it adds the
15 naps: `digitalVal`, `buffer`, the sensor and the bytes sent are untouched,
and two machines that differ in any way nap equally often. -/
theorem powerDown_watchDog_fifteen_naps (m m2 : Machine) :
    powerDown_watchDog m = { m with trace := m.trace ++ List.replicate 15 Event.nap }
      ∧ napCount (powerDown_watchDog m).trace = napCount m.trace + 15
      ∧ (powerDown_watchDog m).digitalVal = m.digitalVal
      ∧ (powerDown_watchDog m).buffer = m.buffer
      ∧ (powerDown_watchDog m).reads = m.reads
      ∧ uartBytes (powerDown_watchDog m).trace = uartBytes m.trace
      ∧ napCount (powerDown_watchDog m).trace - napCount m.trace
          = napCount (powerDown_watchDog m2).trace - napCount m2.trace := by
  have hn : ∀ x : Machine, napCount (powerDown_watchDog x).trace = napCount x.trace + 15 := by
    intro x
    rw [powerDown_watchDog_eq, napCount_append, napCount_replicate]
  refine ⟨powerDown_watchDog_eq m, hn m, ?_, ?_, ?_, ?_, ?_⟩
  · rw [powerDown_watchDog_eq]
  · rw [powerDown_watchDog_eq]
  · rw [powerDown_watchDog_eq]
  · rw [powerDown_watchDog_eq, uartBytes_append]
    have : uartBytes (List.replicate 15 Event.nap) = [] := by decide
    rw [this, List.append_nil]
  · rw [hn m, hn m2]
    omega

/-- C7: every call of `alarmTimer()` flips bit 0 of `PORTD` and leaves the
other bits alone; one burst is exactly 350 such calls, alternating the pin,
which leave the pin at its starting level; the pin is then forced low before
the rest, so that the level recorded for the whole 100 ms delay has bit 0 low
and bits 1..7 as before, and it is still so when the burst ends.  This holds
from every machine, so for either starting level of the pin: high after the
initialisation in `main()`, low after a burst. -/
theorem alarm_burst_350_toggles (m : Machine) :
    (∀ x : Machine, (alarmTimer x).PORTD = x.PORTD ^^^ 1
        ∧ (alarmTimer x).PORTD % 2 = 1 - x.PORTD % 2
        ∧ (alarmTimer x).PORTD / 2 = x.PORTD / 2
        ∧ toggleCount (alarmTimer x).trace = toggleCount x.trace + 1)
      ∧ (alarm_burst m).trace
          = m.trace ++ (toggleEvents m.PORTD 350 ++ [Event.delay (m.PORTD &&& 254) 100])
      ∧ toggleCount (alarm_burst m).trace = toggleCount m.trace + 350
      ∧ (alarm_loop 0 m).PORTD = m.PORTD
      ∧ (∃ p, (alarm_burst m).trace.getLast? = some (Event.delay p 100)
          ∧ p % 2 = 0 ∧ p / 2 = m.PORTD / 2 % 128)
      ∧ (alarm_burst m).PORTD = m.PORTD &&& 254
      ∧ (alarm_burst m).PORTD % 2 = 0
      ∧ (alarm_burst m).PORTD / 2 = m.PORTD / 2 % 128
      ∧ (main_init m).PORTD % 2 = 1 := by
  have hlow : (m.PORTD &&& 254) % 2 = 0 := by
    have h := @Nat.and_mod_two_eq_one m.PORTD 254
    have : (m.PORTD &&& 254) % 2 ≠ 1 := by
      intro hc
      have := (h.mp hc).2
      omega
    omega
  have hrest : (m.PORTD &&& 254) / 2 = m.PORTD / 2 % 128 := by
    rw [Nat.and_div_two]
    exact Nat.and_pow_two_sub_one_eq_mod (m.PORTD / 2) 7
  refine ⟨?_, alarm_burst_trace m, ?_, ?_, ?_, alarm_burst_PORTD m, ?_, ?_, rfl⟩
  · intro x
    refine ⟨alarmTimer_PORTD x, ?_, ?_, ?_⟩
    · rw [alarmTimer_PORTD, Nat.xor_mod_two_eq]
      omega
    · rw [alarmTimer_PORTD, Nat.xor_div_two]
      simp
    · rw [alarmTimer_trace, toggleCount_append]
      rfl
  · rw [alarm_burst_trace, toggleCount_append, toggleCount_append, toggleCount_toggleEvents]
    rfl
  · rw [alarm_loop_iterate, (alarmTimer_iterate 350 m).1]
    rfl
  · refine ⟨m.PORTD &&& 254, ?_, hlow, hrest⟩
    rw [alarm_burst_trace, ← List.append_assoc, List.getLast?_append]
    rfl
  · rw [alarm_burst_PORTD]
    exact hlow
  · rw [alarm_burst_PORTD]
    exact hrest

/-- C8: for a sample `s` in 0..1023 one report sends exactly the decimal digits
of `s`, most significant first and without leading zeros or sign, then 13 and
10; `itoa` stores these digits and a NUL, at most 5 bytes, and the buffer keeps
its 6 bytes. -/
theorem report_sends_decimal_line (m : Machine) (s : Nat) (hs : s < 1024) :
    uartBytes (report { m with digitalVal := s }).trace
        = uartBytes m.trace ++ decimalLine s
      ∧ itoa (toInt16 s) 10 = decimalChars s ++ [0]
      ∧ (itoa (toInt16 s) 10).length ≤ 5
      ∧ (∀ c ∈ decimalChars s, 48 ≤ c ∧ c ≤ 57)
      ∧ (report { m with digitalVal := s }).buffer
          = store m.buffer (decimalChars s ++ [0])
      ∧ (m.buffer.length = 6 → (report { m with digitalVal := s }).buffer.length = 6) := by
  have hl := decimalChars_length s hs
  refine ⟨report_uartBytes { m with digitalVal := s } hs, itoa_decimal s hs, ?_,
    decimalChars_ne_zero s, ?_, ?_⟩
  · rw [itoa_decimal s hs]
    simp
    omega
  · rw [report_buffer, itoa_decimal s hs]
  · intro hb
    rw [report_buffer, itoa_decimal s hs, store_length]
    · exact hb
    · simp
      have : m.buffer.length = 6 := hb
      omega

/-- Witness of C8 at the largest sample, 1023. -/
theorem report_sends_decimal_line_witness :
    uartBytes (report { reset (fun _ => 0) with digitalVal := 1023 }).trace
        = uartBytes (reset (fun _ => 0)).trace ++ decimalLine 1023
      ∧ itoa (toInt16 1023) 10 = decimalChars 1023 ++ [0]
      ∧ (itoa (toInt16 1023) 10).length ≤ 5
      ∧ (∀ c ∈ decimalChars 1023, 48 ≤ c ∧ c ≤ 57)
      ∧ (report { reset (fun _ => 0) with digitalVal := 1023 }).buffer
          = store (reset (fun _ => 0)).buffer (decimalChars 1023 ++ [0])
      ∧ ((reset (fun _ => 0)).buffer.length = 6
          → (report { reset (fun _ => 0) with digitalVal := 1023 }).buffer.length = 6) :=
  report_sends_decimal_line (reset (fun _ => 0)) 1023 (by decide)

/-- C10, evaluated on the code: with the watchdog as `powerDown_setup()`
leaves it the time-out is 4000 ms, `powerDown_watchDog()` naps 15 times, and one
sleep cycle lasts 60000 ms, one minute, not the 120000 ms of two minutes. -/
theorem sleep_cycle_is_sixty_seconds (m : Machine) :
    (powerDown_setup m).WDTCSR = 96
      ∧ wdtPeriodMs (powerDown_setup m).WDTCSR = 4000
      ∧ napCount (powerDown_watchDog (powerDown_setup m)).trace
          = napCount (powerDown_setup m).trace + 15
      ∧ sleepCycleMs (powerDown_setup m) = 60000
      ∧ sleepCycleMs (powerDown_setup m) ≠ 120000 := by
  have hw : (powerDown_setup m).WDTCSR = 96 := by
    show (1 <<< WDP3) ||| (1 <<< WDIE) = 96
    decide
  have hn : napCount (powerDown_watchDog (powerDown_setup m)).trace
      = napCount (powerDown_setup m).trace + 15 := by
    rw [powerDown_watchDog_eq, napCount_append, napCount_replicate]
  have hp : wdtPeriodMs (powerDown_setup m).WDTCSR = 4000 := by
    rw [hw]; decide
  have hc : sleepCycleMs (powerDown_setup m) = 60000 := by
    unfold sleepCycleMs
    rw [hn, hp]
    simp
  exact ⟨hw, hp, hn, hc, by rw [hc]; decide⟩

/-- When the first sample is below the ceiling, as on a constant sequence below
it, `init_configure()` returns at its first loop test. -/
theorem init_configure_constant_low (fuel : Nat) (m : Machine)
    (hs : sample m.sensor m.reads < 400) :
    ∃ r, init_configure (fuel + 1) m = some r ∧ r.reads = m.reads + 1 := by
  unfold sample at hs
  obtain ⟨r, h1, h2, -⟩ := init_configure_returns 0 m (fun j hj => by omega)
    (by simpa using Nat.le_of_lt hs) (fuel + 1) (by omega)
  exact ⟨r, h1, by simpa using h2⟩

/-- On a constant sequence above the ceiling `init_configure()` never returns. -/
theorem init_configure_constant_high (s fuel : Nat) (m : Machine)
    (hc : ∀ i, m.sensor i = s) (hs : 400 < s % 1024) :
    init_configure fuel m = none :=
  init_configure_loops fuel m (fun j => by rw [hc]; exact hs)

/-- C2, evaluated on the code at the ceiling itself: on the constant sequence
400 the first loop test of `init_configure()` fails and the function returns
after one read. -/
theorem init_configure_returns_at_400 :
    sample (boot fun _ => 400).hw.sensor 0 = 400
      ∧ ∃ r, init_configure 1 (boot fun _ => 400).hw = some r ∧ r.reads = 1 := by
  refine ⟨by decide, ?_⟩
  obtain ⟨r, h1, h2, -⟩ := init_configure_returns 0 (boot fun _ => 400).hw
    (fun j hj => by omega) (by decide) 1 (by omega)
  exact ⟨r, h1, h2⟩

/-- C3 as stated fails on its own example: on 800, 800, 800, 390, 390, ... the
gate tests the samples at positions 0, 2 and 4 and reports those at positions
1 and 3; it returns having consumed five samples, not four, and the first
sample below 400 (position 3) is reported, not tested. -/
theorem calibrationScenario_consumes_five :
    ∃ r, init_configure 3 (boot calibrationScenario).hw = some r
      ∧ r.reads = 5
      ∧ r.reads ≠ 4
      ∧ uartBytes r.trace = decimalLine 800 ++ decimalLine 390 := by
  obtain ⟨r, h1, h2, -, -, h5⟩ := init_configure_returns 2 (boot calibrationScenario).hw
    (fun j hj => by interval_cases j <;> decide) (by decide) 3 (by omega)
  have e1 : uartBytes (boot calibrationScenario).hw.trace = [] := rfl
  have e2 : (boot calibrationScenario).hw.sensor = calibrationScenario := rfl
  have e3 : (boot calibrationScenario).hw.reads = 0 := rfl
  refine ⟨r, h1, h2, by rw [h2]; decide, ?_⟩
  rw [h5, e1, e2, e3]
  simp [List.range_succ, calibrationScenario]

/-- C3, as amended: each pass of the gate tests one sample and, when it is
above 400, reads a second sample and reports that one.  If the tested samples
(every second one) are above 400 for `k` passes and the next tested sample is
below 400, `init_configure()` returns having consumed exactly those `2 k + 1`
samples and having reported the `k` samples in between. -/
theorem init_configure_consumes_to_first_low_test (m : Machine) (k fuel : Nat)
    (hhigh : ∀ j, j < k → 400 < sample m.sensor (m.reads + 2 * j))
    (hlow : sample m.sensor (m.reads + 2 * k) < 400) (hf : k < fuel) :
    ∃ r, init_configure fuel m = some r
      ∧ r.reads = m.reads + 2 * k + 1
      ∧ uartBytes r.trace = uartBytes m.trace
          ++ ((List.range k).map fun j =>
                decimalLine (sample m.sensor (m.reads + 2 * j + 1))).flatten := by
  unfold sample at hhigh hlow
  obtain ⟨r, h1, h2, -, -, h5⟩ := init_configure_returns k m hhigh (Nat.le_of_lt hlow) fuel hf
  exact ⟨r, h1, h2, h5⟩

/-- Witness of C3 on 800, 800, 800, 390, 390, ...: two passes, five samples. -/
theorem init_configure_consumes_to_first_low_test_witness :
    (∀ j, j < 2 → 400 < sample (boot calibrationScenario).hw.sensor
        ((boot calibrationScenario).hw.reads + 2 * j))
      ∧ sample (boot calibrationScenario).hw.sensor
          ((boot calibrationScenario).hw.reads + 2 * 2) < 400
      ∧ ∃ r, init_configure 3 (boot calibrationScenario).hw = some r
        ∧ r.reads = (boot calibrationScenario).hw.reads + 2 * 2 + 1
        ∧ uartBytes r.trace = uartBytes (boot calibrationScenario).hw.trace
            ++ ((List.range 2).map fun j =>
                  decimalLine (sample (boot calibrationScenario).hw.sensor
                    ((boot calibrationScenario).hw.reads + 2 * j + 1))).flatten :=
  ⟨fun j hj => by interval_cases j <;> decide, by decide,
    init_configure_consumes_to_first_low_test (boot calibrationScenario).hw 2 3
      (fun j hj => by interval_cases j <;> decide) (by decide) (by decide)⟩

/-- C9 as stated fails at the first sensor read: on 800, 800, 300, ... the gate
returns after three reads, and `PORTB` at those reads was 0, 2, 2: the `LED`
bit is low at the first read. -/
theorem first_read_has_led_low :
    ∃ r, init_configure 2 (boot onePassScenario).hw = some r
      ∧ portbAtReads r.trace = [0, 2, 2]
      ∧ Nat.testBit 0 LED = false := by
  obtain ⟨r, h1, -⟩ := init_configure_returns 1 (boot onePassScenario).hw
    (fun j hj => by interval_cases j; decide) (by decide) 2 (by omega)
  obtain ⟨h2, -⟩ := init_configure_led 1 (boot onePassScenario).hw r 2
    (fun j hj => by interval_cases j; decide) (by decide) h1
  refine ⟨r, h1, ?_, by decide⟩
  rw [h2]
  rfl

/-- C9, as amended: when `init_configure()` returns, the `LED` bit of `PORTB`
is 0 and the other bits are as on entry; every byte sent inside it and every
sensor read but the first were made with the `LED` bit 1; the first read, the
first loop test, was made with `PORTB` as on entry. -/
theorem init_configure_led_high_after_first_read (fuel : Nat) (m r : Machine)
    (h : init_configure fuel m = some r) :
    r.PORTB = m.PORTB &&& not8 (1 <<< LED)
      ∧ Nat.testBit r.PORTB LED = false
      ∧ (∀ i, i < 8 → i ≠ LED → Nat.testBit r.PORTB i = Nat.testBit m.PORTB i)
      ∧ Nat.testBit (m.PORTB ||| 2) LED = true
      ∧ ∃ k n, portbAtReads r.trace
            = portbAtReads m.trace ++ m.PORTB :: List.replicate (2 * k) (m.PORTB ||| 2)
          ∧ portbAtSends r.trace
            = portbAtSends m.trace ++ List.replicate n (m.PORTB ||| 2) := by
  obtain ⟨k, hk, hhigh, hlow⟩ := init_configure_some_inv fuel m r h
  obtain ⟨r2, h1, -, -, hP, -⟩ := init_configure_returns k m hhigh hlow fuel hk
  rw [h] at h1
  simp only [Option.some.injEq] at h1
  subst h1
  obtain ⟨hR, n, hS⟩ := init_configure_led k m r fuel hhigh hlow h
  refine ⟨hP, ?_, ?_, ?_, k, n, hR, hS⟩
  · rw [hP, Nat.testBit_and]
    have : Nat.testBit (not8 (1 <<< LED)) LED = false := by decide
    rw [this, Bool.and_false]
  · intro i hi hne
    rw [hP, Nat.testBit_and]
    have : Nat.testBit (not8 (1 <<< LED)) i = true := by
      unfold LED at hne
      interval_cases i <;> first | contradiction | decide
    rw [this, Bool.and_true]
  · rw [Nat.testBit_or]
    have : Nat.testBit 2 LED = true := by decide
    rw [this, Bool.or_true]

/-- Witness of C9 on 800, 800, 300, ...: one pass of the loop, then return. -/
theorem init_configure_led_high_after_first_read_witness :
    ∃ r, init_configure 2 (boot onePassScenario).hw = some r
      ∧ (r.PORTB = (boot onePassScenario).hw.PORTB &&& not8 (1 <<< LED)
        ∧ Nat.testBit r.PORTB LED = false
        ∧ (∀ i, i < 8 → i ≠ LED
            → Nat.testBit r.PORTB i = Nat.testBit (boot onePassScenario).hw.PORTB i)
        ∧ Nat.testBit ((boot onePassScenario).hw.PORTB ||| 2) LED = true
        ∧ ∃ k n, portbAtReads r.trace
              = portbAtReads (boot onePassScenario).hw.trace
                ++ (boot onePassScenario).hw.PORTB
                  :: List.replicate (2 * k) ((boot onePassScenario).hw.PORTB ||| 2)
            ∧ portbAtSends r.trace
              = portbAtSends (boot onePassScenario).hw.trace
                ++ List.replicate n ((boot onePassScenario).hw.PORTB ||| 2)) := by
  obtain ⟨r, h1, -⟩ := init_configure_returns 1 (boot onePassScenario).hw
    (fun j hj => by interval_cases j; decide) (by decide) 2 (by omega)
  exact ⟨r, h1, init_configure_led_high_after_first_read 2 (boot onePassScenario).hw r h1⟩

end SmokeAlarm
